import Mathlib

set_option maxRecDepth 10000

/-!
Shallow embedding of the buyzaar-be domain layer
(`app/domain/models/order.py`, `app/domain/models/product.py`,
`app/domain/value_objects/money.py`, `app/domain/value_objects/address.py`,
`app/domain/services/order_service.py`, `app/domain/exceptions.py`).

Python `Decimal` values are modelled as rationals (`ℚ`); Python `int` as `ℤ`;
`datetime.utcnow()` is modelled by threading an explicit `now : Nat` tick into
every mutating operation.  In-place mutation plus exceptions is modelled by
returning `Option Err × State`: the error component is the raised exception
and the state component is the state visible to the caller when the call
returns or the exception escapes.  In every embedded function the `raise`
sites occur before any mutation, so the state returned alongside an error is
the unchanged input state, exactly as in the Python code.
-/

/-- Domain exceptions of `app/domain/exceptions.py`, one constructor per
exception class raised by the embedded code, carrying the arguments passed at
the raise site. -/
inductive Err where
  | validationError (errors : List (String × String))
  | notFoundError (entity_type : String) (entity_id : Option Int)
  | businessRuleError (rule : String)
  | insufficientInventoryError (product_id : Option Int) (product_name : String)
      (requested : Int) (available : Int)
  | invalidStatusTransitionError (entity_type : String) (current_status : String)
      (new_status : String)
  | valueError (msg : String)
  | zeroDivisionError (msg : String)
deriving DecidableEq

/-- Whether an exception is the `NotFoundError` class of
`app/domain/exceptions.py`. -/
def Err.isNotFound : Err → Bool
  | .notFoundError _ _ => true
  | _ => false

/-- Round-half-even (banker's rounding) to the nearest integer: the rounding
rule of Python `Decimal.quantize` under the default context. -/
def roundHalfEven (q : ℚ) : ℤ :=
  let f : ℤ := ⌊q⌋
  let r : ℚ := q - f
  if r < 1/2 then f
  else if 1/2 < r then f + 1
  else if f % 2 = 0 then f else f + 1

/-- `Decimal(...).quantize(Decimal('0.01'))`: round to two fractional digits
under round-half-even. -/
def quantize2 (q : ℚ) : ℚ :=
  (roundHalfEven (q * 100) : ℚ) / 100

/-- `Money` value object (`money.py`): a single `amount` field. -/
structure Money where
  amount : ℚ
deriving DecidableEq

/-- `Money.__post_init__`: every constructed `Money` has its amount quantized
to two fractional digits.  All `Money` construction sites in the source go
through this. -/
def Money.ofRat (q : ℚ) : Money :=
  ⟨quantize2 q⟩

/-- `Money.__add__`: `Money(self.amount + other.amount)`. -/
def Money.add (a b : Money) : Money :=
  Money.ofRat (a.amount + b.amount)

/-- `Money.__sub__`: `Money(self.amount - other.amount)`. -/
def Money.sub (a b : Money) : Money :=
  Money.ofRat (a.amount - b.amount)

/-- `Money.__mul__` by a numeric scalar. -/
def Money.mul (a : Money) (k : ℚ) : Money :=
  Money.ofRat (a.amount * k)

/-- `Money.__truediv__` by a numeric scalar; division by zero raises
`ZeroDivisionError`.  The Python code divides at the default 28-significant-
digit context before quantizing; the embedding takes the exact rational
quotient, which the final two-digit quantization is applied to either way. -/
def Money.truediv (a : Money) (k : ℚ) : Except Err Money :=
  if k = 0 then .error (.zeroDivisionError "Cannot divide Money by zero")
  else .ok (Money.ofRat (a.amount / k))

/-- A `Money` whose amount is a fixed point of two-digit quantization, i.e.
the invariant `Money.__post_init__` establishes. -/
def Money.Quantized (m : Money) : Prop :=
  quantize2 m.amount = m.amount

instance (m : Money) : Decidable m.Quantized :=
  inferInstanceAs (Decidable (quantize2 m.amount = m.amount))

/-- `Address` value object (`address.py`). -/
structure Address where
  street : String
  city : String
  state : String
  postal_code : String
  country : String
deriving DecidableEq

/-- `Product` domain model (`product.py`). -/
structure Product where
  id : Option Int
  name : String
  description : String
  price : Money
  image_url : String
  stock : Int
  sku : Option String
  is_active : Bool
  created_at : Nat
  updated_at : Nat
deriving DecidableEq

/-- `Product.validate`: collects errors for empty name, non-positive price
and negative stock, raising `ValidationError` when any are present. -/
def Product.validate (p : Product) : Option Err :=
  let errors : List (String × String) :=
    (if p.name = "" then [("name", "Name is required")] else []) ++
    (if p.price.amount ≤ 0 then [("price", "Price must be greater than zero")] else []) ++
    (if p.stock < 0 then [("stock", "Stock cannot be negative")] else [])
  if errors = [] then none else some (.validationError errors)

/-- `Product.update_stock`: raises `InsufficientInventoryError` when removing
more than available, otherwise adds the (signed) quantity to the stock and
refreshes the updated timestamp. -/
def Product.update_stock (now : Nat) (p : Product) (quantity : Int) : Option Err × Product :=
  if quantity < 0 ∧ |quantity| > p.stock then
    (some (.insufficientInventoryError p.id p.name |quantity| p.stock), p)
  else
    (none, { p with stock := p.stock + quantity, updated_at := now })

/-- `Product.reserve_stock`: `self.update_stock(-quantity)`. -/
def Product.reserve_stock (now : Nat) (p : Product) (quantity : Int) : Option Err × Product :=
  Product.update_stock now p (-quantity)

/-- `Product.release_stock`: `self.update_stock(quantity)`. -/
def Product.release_stock (now : Nat) (p : Product) (quantity : Int) : Option Err × Product :=
  Product.update_stock now p quantity

/-- `OrderStatus.PENDING`. -/
def OrderStatus.PENDING : String := "pending"

/-- `OrderStatus.PROCESSING`. -/
def OrderStatus.PROCESSING : String := "processing"

/-- `OrderStatus.SHIPPED`. -/
def OrderStatus.SHIPPED : String := "shipped"

/-- `OrderStatus.DELIVERED`. -/
def OrderStatus.DELIVERED : String := "delivered"

/-- `OrderStatus.CANCELLED`. -/
def OrderStatus.CANCELLED : String := "cancelled"

/-- `OrderStatus.all`. -/
def OrderStatus.all : List String :=
  [OrderStatus.PENDING, OrderStatus.PROCESSING, OrderStatus.SHIPPED,
   OrderStatus.DELIVERED, OrderStatus.CANCELLED]

/-- `OrderStatus.is_valid`: membership in `OrderStatus.all`. -/
def OrderStatus.is_valid (status : String) : Bool :=
  decide (status ∈ OrderStatus.all)

/-- `OrderStatus.is_final`: membership in `[DELIVERED, CANCELLED]`. -/
def OrderStatus.is_final (status : String) : Bool :=
  decide (status ∈ [OrderStatus.DELIVERED, OrderStatus.CANCELLED])

/-- The `valid_transitions` dictionary of `OrderStatus.can_transition`, with
`.get(from_status, [])` for keys not present. -/
def OrderStatus.valid_transitions (from_status : String) : List String :=
  if from_status = OrderStatus.PENDING then [OrderStatus.PROCESSING, OrderStatus.CANCELLED]
  else if from_status = OrderStatus.PROCESSING then [OrderStatus.SHIPPED, OrderStatus.CANCELLED]
  else if from_status = OrderStatus.SHIPPED then [OrderStatus.DELIVERED, OrderStatus.CANCELLED]
  else []

/-- `OrderStatus.can_transition`: no transition out of a final status, none to
the same status, otherwise lookup in the transition table. -/
def OrderStatus.can_transition (from_status to_status : String) : Bool :=
  if OrderStatus.is_final from_status then false
  else if from_status = to_status then false
  else decide (to_status ∈ OrderStatus.valid_transitions from_status)

/-- `OrderItem` entity (`order.py`).  The `product_id` field is declared
`int` in the dataclass but receives `product.id : Optional[int]` at the
`OrderService.add_product_to_order` call site, so it is modelled as
`Option Int`; Python falsiness of `product_id` is `none` or `some 0`. -/
structure OrderItem where
  id : Option Int
  order_id : Option Int
  product_id : Option Int
  product_name : String
  quantity : Int
  price : Money
deriving DecidableEq

/-- `OrderItem.validate`: errors for missing product id, non-positive
quantity and non-positive price. -/
def OrderItem.validate (it : OrderItem) : Option Err :=
  let errors : List (String × String) :=
    (if it.product_id = none ∨ it.product_id = some 0 then
      [("product_id", "Product ID is required")] else []) ++
    (if it.quantity ≤ 0 then [("quantity", "Quantity must be greater than zero")] else []) ++
    (if it.price.amount ≤ 0 then [("price", "Price must be greater than zero")] else [])
  if errors = [] then none else some (.validationError errors)

/-- `OrderItem(...)` construction followed by `__post_init__` validation,
with the price already a `Money`. -/
def OrderItem.mk_validated (id order_id product_id : Option Int) (product_name : String)
    (quantity : Int) (price : Money) : Except Err OrderItem :=
  let it : OrderItem :=
    { id := id, order_id := order_id, product_id := product_id,
      product_name := product_name, quantity := quantity, price := price }
  match it.validate with
  | some e => .error e
  | none => .ok it

/-- `OrderItem.subtotal`: `self.price * self.quantity`. -/
def OrderItem.subtotal (it : OrderItem) : Money :=
  it.price.mul (it.quantity : ℚ)

/-- `Order` domain model (`order.py`). -/
structure Order where
  id : Option Int
  user_id : Int
  status : String
  total_amount : Money
  shipping_address : Option Address
  tracking_number : Option String
  notes : String
  items : List OrderItem
  created_at : Nat
  updated_at : Nat
deriving DecidableEq

/-- The status error message of `Order.validate` and `Order.update_status`. -/
def OrderStatus.statusMessage : String :=
  "Status must be one of: " ++ String.intercalate ", " OrderStatus.all

/-- `Order.validate`: errors for missing user id, invalid status and empty
items list. -/
def Order.validate (o : Order) : Option Err :=
  let errors : List (String × String) :=
    (if o.user_id = 0 then [("user_id", "User ID is required")] else []) ++
    (if o.status = "" ∨ OrderStatus.is_valid o.status = false then
      [("status", OrderStatus.statusMessage)] else []) ++
    (if o.items = [] then [("items", "Order must have at least one item")] else [])
  if errors = [] then none else some (.validationError errors)

/-- The `Order(...)` construction performed by
`OrderService.create_order_from_products`: defaults for every field that call
site does not pass, `__post_init__` validation, timestamps set to `now`. -/
def Order.mk_validated (now : Nat) (user_id : Int) (shipping_address : Option Address)
    (notes : String) : Except Err Order :=
  let o : Order :=
    { id := none, user_id := user_id, status := OrderStatus.PENDING,
      total_amount := Money.ofRat 0, shipping_address := shipping_address,
      tracking_number := none, notes := notes, items := [],
      created_at := now, updated_at := now }
  match o.validate with
  | some e => .error e
  | none => .ok o

/-- `Order.calculate_total`: fold `Money.__add__` of the item subtotals over
`Money(Decimal('0.00'))`; returns the total and stores it in
`total_amount`. -/
def Order.calculate_total (o : Order) : Money × Order :=
  let total := o.items.foldl (fun acc it => acc.add it.subtotal) (Money.ofRat 0)
  (total, { o with total_amount := total })

/-- `Order.add_item`: rejected in a final status; otherwise sets the item's
`order_id`, appends it, recalculates the total and refreshes the updated
timestamp. -/
def Order.add_item (now : Nat) (o : Order) (item : OrderItem) : Option Err × Order :=
  if OrderStatus.is_final o.status then
    (some (.businessRuleError ("Cannot add items to an order with status \x27" ++ o.status ++ "\x27")), o)
  else
    let item' := { item with order_id := o.id }
    let o₂ := (Order.calculate_total { o with items := o.items ++ [item'] }).2
    (none, { o₂ with updated_at := now })

/-- The item-removal loop of `Order.remove_item`: drop the first item whose
`id` equals the given id, or `none` when no item matches. -/
def Order.removeFirstItem : List OrderItem → Int → Option (List OrderItem)
  | [], _ => none
  | it :: rest, item_id =>
      if it.id = some item_id then some rest
      else (Order.removeFirstItem rest item_id).map (fun l => it :: l)

/-- `Order.remove_item`: rejected in a final status; removes the first item
with the given id, recalculates the total and refreshes the timestamp;
raises `ValueError` when no item matches. -/
def Order.remove_item (now : Nat) (o : Order) (item_id : Int) : Option Err × Order :=
  if OrderStatus.is_final o.status then
    (some (.businessRuleError ("Cannot remove items from an order with status \x27" ++ o.status ++ "\x27")), o)
  else
    match Order.removeFirstItem o.items item_id with
    | some items' =>
        let o₂ := (Order.calculate_total { o with items := items' }).2
        (none, { o₂ with updated_at := now })
    | none =>
        (some (.valueError ("Item with ID " ++ toString item_id ++ " not found in order")), o)

/-- `Order.update_status`: `ValidationError` for an unknown status string,
`InvalidStatusTransitionError` for a disallowed transition, otherwise the
status is written and the timestamp refreshed. -/
def Order.update_status (now : Nat) (o : Order) (new_status : String) : Option Err × Order :=
  if OrderStatus.is_valid new_status = false then
    (some (.validationError [("status", OrderStatus.statusMessage)]), o)
  else if OrderStatus.can_transition o.status new_status = false then
    (some (.invalidStatusTransitionError "Order" o.status new_status), o)
  else
    (none, { o with status := new_status, updated_at := now })

/-- `Order.cancel`: rejected when already cancelled or delivered, otherwise
the status becomes `cancelled` and the timestamp is refreshed. -/
def Order.cancel (now : Nat) (o : Order) : Option Err × Order :=
  if o.status = OrderStatus.CANCELLED then
    (some (.businessRuleError "Order is already cancelled"), o)
  else if o.status = OrderStatus.DELIVERED then
    (some (.businessRuleError "Cannot cancel a delivered order"), o)
  else
    (none, { o with status := OrderStatus.CANCELLED, updated_at := now })

/-- `OrderService.create_order_from_products`
(`order_service.py`): reject an empty product list, construct the `Order`,
then validate each `(product_id, quantity)` pair.  The Python items are
dictionaries; the claims concern well-typed pairs, so each entry is modelled
as a pair of integers (the `'product_id' in product_data` and `isinstance`
checks hold by typing). -/
def OrderService.create_order_from_products (now : Nat) (user_id : Int)
    (products : List (Int × Int)) (shipping_address : Address) (notes : String) :
    Except Err Order :=
  if products = [] then
    .error (.businessRuleError "Order must contain at least one product")
  else do
    let order ← Order.mk_validated now user_id (some shipping_address) notes
    products.forM (fun pd =>
      if pd.1 ≤ 0 then
        Except.error (.valueError ("Invalid product ID: " ++ toString pd.1))
      else if pd.2 ≤ 0 then
        Except.error (.valueError ("Invalid quantity for product " ++ toString pd.1 ++
          ": " ++ toString pd.2))
      else Except.ok ())
    return order

/-- `OrderService.add_product_to_order`: reject a final-status order, a
non-positive quantity, and insufficient stock; build and validate the
`OrderItem`, add it to the order, reserve the product stock.  Returns the
created item together with the mutated order and product.  The two inner
error branches are unreachable: `add_item` only fails on a final status
(already excluded) and `reserve_stock` only fails when the stock check above
failed. -/
def OrderService.add_product_to_order (now : Nat) (order : Order) (product : Product)
    (quantity : Int) : Except Err (OrderItem × Order × Product) :=
  if OrderStatus.is_final order.status then
    .error (.businessRuleError ("Cannot add products to an order with status \x27" ++
      order.status ++ "\x27"))
  else if quantity ≤ 0 then
    .error (.valueError "Quantity must be greater than zero")
  else if product.stock < quantity then
    .error (.insufficientInventoryError product.id product.name quantity product.stock)
  else
    match OrderItem.mk_validated none none product.id product.name quantity product.price with
    | .error e => .error e
    | .ok item =>
      match Order.add_item now order item with
      | (some e, _) => .error e
      | (none, order') =>
        match Product.reserve_stock now product quantity with
        | (some e, _) => .error e
        | (none, product') => .ok (item, order', product')

/-- The inner loop of `OrderService.cancel_order`: release the item's
quantity to the first product in the list whose `id` equals the item's
`product_id`, then `break`; products before the match are kept as they are,
and a list without a match is returned unchanged. -/
def OrderService.releaseFirstMatch (now : Nat) (it : OrderItem) :
    List Product → Option Err × List Product
  | [] => (none, [])
  | p :: ps =>
      if p.id = it.product_id then
        match Product.release_stock now p it.quantity with
        | (e, p') => (e, p' :: ps)
      else
        match OrderService.releaseFirstMatch now it ps with
        | (e, ps') => (e, p :: ps')

/-- The outer loop of `OrderService.cancel_order` over the order's items;
an exception from a release stops the loop and escapes. -/
def OrderService.releaseItems (now : Nat) :
    List OrderItem → List Product → Option Err × List Product
  | [], ps => (none, ps)
  | it :: rest, ps =>
      match OrderService.releaseFirstMatch now it ps with
      | (some e, ps') => (some e, ps')
      | (none, ps') => OrderService.releaseItems now rest ps'

/-- `OrderService.cancel_order`: cancel the order, then restore stock for
every item of the order against the supplied product list. -/
def OrderService.cancel_order (now : Nat) (order : Order) (products : List Product) :
    Option Err × Order × List Product :=
  match Order.cancel now order with
  | (some e, order') => (some e, order', products)
  | (none, order') =>
      match OrderService.releaseItems now order'.items products with
      | (e, products') => (e, order', products')

/-- Harness for the claims quantifying over call sequences of
`OrderService.add_product_to_order`: apply each `(index, quantity)` request
to the order and the product at that index of the product list, threading the
mutated order and products exactly as a caller holding the list would. -/
def OrderService.applyAdds (now : Nat) :
    List (Nat × Int) → Order → List Product → Except Err (Order × List Product)
  | [], o, ps => .ok (o, ps)
  | (k, q) :: ops, o, ps =>
      match ps[k]? with
      | none => .error (.valueError "no product at this index")
      | some p =>
        match OrderService.add_product_to_order now o p q with
        | .error e => .error e
        | .ok (_, o', p') => OrderService.applyAdds now ops o' (ps.set k p')

/-- Total quantity of the items whose `product_id` equals the given id
(the amount reserved against that product). -/
def reservedQty : List OrderItem → Option Int → Int
  | [], _ => 0
  | it :: rest, pid =>
      (if pid = it.product_id then it.quantity else 0) + reservedQty rest pid

/-- Total quantity of the items whose `product_id` occurs among the given
product ids (the amount `cancel_order` releases overall). -/
def reservedMatchedQty : List OrderItem → List (Option Int) → Int
  | [], _ => 0
  | it :: rest, ids =>
      (if it.product_id ∈ ids then it.quantity else 0) + reservedMatchedQty rest ids

/-- The id and stock of a product, the observation the stock-accounting
lemmas track. -/
def idStock (p : Product) : Option Int × Int :=
  (p.id, p.stock)

/-- Sum of the stocks of a product list. -/
def sumStocks (ps : List Product) : Int :=
  (ps.map (fun p => p.stock)).sum

/-- A concrete address used by the witnesses. -/
def sampleAddress : Address :=
  { street := "1 Main St", city := "Springfield", state := "IL",
    postal_code := "62701", country := "US" }

/-- A concrete quantized money value, 4.99. -/
def sampleMoney : Money := Money.ofRat (499/100)

/-- A concrete product with id 1 and stock 10. -/
def sampleProduct : Product :=
  { id := some 1, name := "Widget", description := "", price := sampleMoney,
    image_url := "", stock := 10, sku := none, is_active := true,
    created_at := 0, updated_at := 0 }

/-- A concrete order item for product 1. -/
def sampleItem : OrderItem :=
  { id := some 1, order_id := some 1, product_id := some 1,
    product_name := "Widget", quantity := 2, price := sampleMoney }

/-- A concrete pending order holding `sampleItem`. -/
def sampleOrder : Order :=
  { id := some 1, user_id := 1, status := OrderStatus.PENDING,
    total_amount := Money.ofRat 0, shipping_address := some sampleAddress,
    tracking_number := none, notes := "", items := [sampleItem],
    created_at := 0, updated_at := 0 }

/-- A pending order with no items yet (the state of an order whose items all
come from subsequent `add_product_to_order` calls). -/
def emptyOrder : Order := { sampleOrder with items := [] }

/-- An order item whose product id (99) matches no product of the sample
product list. -/
def strayItem : OrderItem :=
  { sampleItem with id := some 2, product_id := some 99 }

/-- A pending order holding one matched and one stray item. -/
def orderWithStray : Order := { sampleOrder with items := [sampleItem, strayItem] }

/-- C2: `Product.update_stock(delta)` raises `InsufficientInventoryError`
carrying the product id, the product name, `requested = |delta|` and
`available = stock`, leaving the product unchanged, exactly when `delta` is
negative and `|delta|` exceeds the stock; otherwise it adds `delta` to the
stock and refreshes the updated timestamp.  `reserve_stock(q)` is
`update_stock(-q)` and `release_stock(q)` is `update_stock(q)`. -/
theorem Product.update_stock_contract (now : Nat) (p : Product) (delta : Int) :
    (delta < 0 ∧ |delta| > p.stock →
      Product.update_stock now p delta =
        (some (Err.insufficientInventoryError p.id p.name |delta| p.stock), p))
    ∧ (¬(delta < 0 ∧ |delta| > p.stock) →
      Product.update_stock now p delta =
        (none, { p with stock := p.stock + delta, updated_at := now }))
    ∧ Product.reserve_stock now p delta = Product.update_stock now p (-delta)
    ∧ Product.release_stock now p delta = Product.update_stock now p delta := by
  refine ⟨fun h => ?_, fun h => ?_, rfl, rfl⟩
  · unfold Product.update_stock
    rw [if_pos h]
  · unfold Product.update_stock
    rw [if_neg h]

/-- Witness for C2: removing 11 from a stock of 10 fails with the inventory
error carrying id, name, requested and available. -/
theorem Product.update_stock_contract_witness :
    Product.update_stock 5 sampleProduct (-11) =
      (some (Err.insufficientInventoryError sampleProduct.id sampleProduct.name
        |(-11 : Int)| sampleProduct.stock), sampleProduct) :=
  (Product.update_stock_contract 5 sampleProduct (-11)).1
    (by constructor <;> with_unfolding_all decide)

/-- C6: a non-negative stock stays non-negative across every stock-mutating
operation that returns without error, and `Product.validate` rejects a
negative stock with a `ValidationError` containing the stock error. -/
theorem Product.stock_nonneg_invariant :
    (∀ (now : Nat) (p : Product) (delta : Int), 0 ≤ p.stock →
        (Product.update_stock now p delta).1 = none →
        0 ≤ (Product.update_stock now p delta).2.stock)
    ∧ (∀ (now : Nat) (p : Product) (q : Int), 0 ≤ p.stock →
        (Product.reserve_stock now p q).1 = none →
        0 ≤ (Product.reserve_stock now p q).2.stock)
    ∧ (∀ (now : Nat) (p : Product) (q : Int), 0 ≤ p.stock →
        (Product.release_stock now p q).1 = none →
        0 ≤ (Product.release_stock now p q).2.stock)
    ∧ (∀ p : Product, p.stock < 0 → ∃ errs,
        Product.validate p = some (Err.validationError errs) ∧
        ("stock", "Stock cannot be negative") ∈ errs) := by
  have key : ∀ (now : Nat) (p : Product) (delta : Int), 0 ≤ p.stock →
      (Product.update_stock now p delta).1 = none →
      0 ≤ (Product.update_stock now p delta).2.stock := by
    intro now p delta h0 hnone
    unfold Product.update_stock at hnone ⊢
    by_cases hc : delta < 0 ∧ |delta| > p.stock
    · rw [if_pos hc] at hnone
      exact absurd hnone (by simp)
    · rw [if_neg hc]
      push_neg at hc
      rcases lt_or_le delta 0 with hd | hd
      · have := hc hd
        rw [abs_of_neg hd] at this
        simp only []
        omega
      · simp only []
        omega
  refine ⟨key, fun now p q h0 h1 => key now p (-q) h0 h1,
    fun now p q h0 h1 => key now p q h0 h1, fun p h => ?_⟩
  refine ⟨(if p.name = "" then [("name", "Name is required")] else []) ++
    (if p.price.amount ≤ 0 then [("price", "Price must be greater than zero")] else []) ++
    [("stock", "Stock cannot be negative")], ?_, by simp⟩
  unfold Product.validate
  rw [if_pos h, if_neg (by simp)]

/-- Witness for C6: a successful removal keeps the stock non-negative, and a
product state with stock `-1` is rejected by `validate` with the stock
error. -/
theorem Product.stock_nonneg_invariant_witness :
    (0 ≤ ((Product.update_stock 5 sampleProduct (-3)).2).stock)
    ∧ (∃ errs, Product.validate { sampleProduct with stock := -1 } =
        some (Err.validationError errs) ∧
        ("stock", "Stock cannot be negative") ∈ errs) :=
  ⟨Product.stock_nonneg_invariant.1 5 sampleProduct (-3) (by decide)
      (by with_unfolding_all decide),
   Product.stock_nonneg_invariant.2.2.2 { sampleProduct with stock := -1 } (by decide)⟩

/-- C10: for a target status string that is not one of the five statuses,
`Order.update_status` raises `ValidationError` (not
`InvalidStatusTransitionError`) and returns the order with its status and
updated timestamp unchanged. -/
theorem Order.update_status_invalid_status (now : Nat) (o : Order) (t : String)
    (ht : OrderStatus.is_valid t = false) :
    Order.update_status now o t =
      (some (Err.validationError [("status", OrderStatus.statusMessage)]), o) := by
  unfold Order.update_status
  rw [if_pos ht]

/-- Witness for C10: updating to the unknown status string `"unknown"` is a
`ValidationError` and the order is returned unchanged. -/
theorem Order.update_status_invalid_status_witness :
    Order.update_status 5 sampleOrder "unknown" =
      (some (Err.validationError [("status", OrderStatus.statusMessage)]), sampleOrder) :=
  Order.update_status_invalid_status 5 sampleOrder "unknown" (by decide)

/-- A string accepted by `OrderStatus.is_valid` is one of the five status
constants. -/
theorem OrderStatus.eq_of_is_valid {s : String} (h : OrderStatus.is_valid s = true) :
    s = OrderStatus.PENDING ∨ s = OrderStatus.PROCESSING ∨ s = OrderStatus.SHIPPED ∨
    s = OrderStatus.DELIVERED ∨ s = OrderStatus.CANCELLED := by
  unfold OrderStatus.is_valid at h
  simpa [OrderStatus.all] using of_decide_eq_true h

/-- C1: for a target among the five statuses, `Order.update_status` succeeds
exactly when the (from, to) pair is in the six-entry transition table; in
every other case it raises `InvalidStatusTransitionError(Order, from, to)`
and returns the order unchanged; on success the status is the target and the
timestamp is refreshed. -/
theorem Order.update_status_transition_table (now : Nat) (o : Order) (t : String)
    (hs : OrderStatus.is_valid o.status = true)
    (ht : OrderStatus.is_valid t = true) :
    ((Order.update_status now o t).1 = none ↔
      (o.status, t) ∈ ([(OrderStatus.PENDING, OrderStatus.PROCESSING),
        (OrderStatus.PENDING, OrderStatus.CANCELLED),
        (OrderStatus.PROCESSING, OrderStatus.SHIPPED),
        (OrderStatus.PROCESSING, OrderStatus.CANCELLED),
        (OrderStatus.SHIPPED, OrderStatus.DELIVERED),
        (OrderStatus.SHIPPED, OrderStatus.CANCELLED)] : List (String × String)))
    ∧ ((Order.update_status now o t).1 ≠ none →
        Order.update_status now o t =
          (some (Err.invalidStatusTransitionError "Order" o.status t), o))
    ∧ ((Order.update_status now o t).1 = none →
        Order.update_status now o t = (none, { o with status := t, updated_at := now })) := by
  rcases OrderStatus.eq_of_is_valid ht with rfl|rfl|rfl|rfl|rfl <;>
    rcases OrderStatus.eq_of_is_valid hs with h1|h1|h1|h1|h1 <;>
    simp [Order.update_status, OrderStatus.can_transition, OrderStatus.is_valid,
      OrderStatus.is_final, OrderStatus.valid_transitions, OrderStatus.all,
      OrderStatus.PENDING, OrderStatus.PROCESSING, OrderStatus.SHIPPED,
      OrderStatus.DELIVERED, OrderStatus.CANCELLED, h1]

/-- Witness for C1: a pending order moves to processing. -/
theorem Order.update_status_transition_table_witness :
    (Order.update_status 5 sampleOrder OrderStatus.PROCESSING).1 = none :=
  ((Order.update_status_transition_table 5 sampleOrder OrderStatus.PROCESSING
      (by decide) (by decide)).1).mpr (by decide)

/-- Rounding an integer rational is the identity. -/
theorem roundHalfEven_intCast (n : ℤ) : roundHalfEven (n : ℚ) = n := by
  unfold roundHalfEven
  rw [Int.floor_intCast]
  norm_num

/-- Quantization fixes every rational that is an integer number of cents. -/
theorem quantize2_div_100 (n : ℤ) : quantize2 ((n : ℚ) / 100) = (n : ℚ) / 100 := by
  unfold quantize2
  rw [div_mul_cancel₀ _ (by norm_num : (100 : ℚ) ≠ 0), roundHalfEven_intCast]

/-- Quantization is idempotent. -/
theorem quantize2_quantize2 (q : ℚ) : quantize2 (quantize2 q) = quantize2 q :=
  quantize2_div_100 (roundHalfEven (q * 100))

/-- Every `Money` built by the constructor is quantized. -/
theorem Money.ofRat_quantized (q : ℚ) : (Money.ofRat q).Quantized :=
  quantize2_quantize2 q

/-- C8: every `Money`, whether from construction or from `add`, `sub`,
scalar `mul` or scalar `truediv`, has its amount fixed by the two-digit
round-half-even quantization, and such an amount is an integer number of
cents; `Money(10.005)` normalizes to 10.00; division by a zero scalar raises
`ZeroDivisionError`. -/
theorem Money.normalization_spec :
    (∀ q : ℚ, (Money.ofRat q).Quantized)
    ∧ (∀ a b : Money, (a.add b).Quantized ∧ (a.sub b).Quantized)
    ∧ (∀ (a : Money) (k : ℚ), (a.mul k).Quantized)
    ∧ (∀ (a : Money) (k : ℚ) (m : Money), Money.truediv a k = Except.ok m → m.Quantized)
    ∧ (∀ m : Money, m.Quantized → ∃ n : ℤ, m.amount = (n : ℚ) / 100)
    ∧ (Money.ofRat (2001/200)).amount = 10
    ∧ (∀ a : Money, Money.truediv a 0 =
        Except.error (Err.zeroDivisionError "Cannot divide Money by zero")) := by
  refine ⟨Money.ofRat_quantized,
    fun a b => ⟨Money.ofRat_quantized _, Money.ofRat_quantized _⟩,
    fun a k => Money.ofRat_quantized _,
    fun a k m h => ?_,
    fun m h => ⟨roundHalfEven (m.amount * 100), by nth_rewrite 1 [← h]; rfl⟩,
    by with_unfolding_all decide,
    fun a => by unfold Money.truediv; rw [if_pos rfl]⟩
  unfold Money.truediv at h
  split at h
  · exact absurd h (by simp)
  · have h' := Except.ok.inj h
    rw [← h']
    exact Money.ofRat_quantized _

/-- Witness for C8: dividing 4.99 by 2 produces a quantized amount (2.50). -/
theorem Money.normalization_spec_witness :
    Money.Quantized (Money.ofRat (sampleMoney.amount / 2)) :=
  Money.normalization_spec.2.2.2.1 sampleMoney 2 _ (by
    unfold Money.truediv
    rw [if_neg (by norm_num)])

/-- A quantized amount is an integer number of cents. -/
theorem Money.exists_cents {m : Money} (h : m.Quantized) :
    ∃ n : ℤ, m.amount = (n : ℚ) / 100 :=
  ⟨roundHalfEven (m.amount * 100), by nth_rewrite 1 [← h]; rfl⟩

/-- Two `Money` values with equal amounts are equal. -/
theorem Money.eq_of_amount {a b : Money} (h : a.amount = b.amount) : a = b := by
  cases a
  cases b
  simpa using h

/-- Quantization fixes zero. -/
theorem quantize2_zero : quantize2 0 = 0 := by
  have h := quantize2_div_100 0
  simpa using h

/-- Adding two quantized `Money` values adds the amounts exactly. -/
theorem Money.add_amount_of_quantized {a b : Money} (ha : a.Quantized) (hb : b.Quantized) :
    (a.add b).amount = a.amount + b.amount := by
  obtain ⟨n, hn⟩ := Money.exists_cents ha
  obtain ⟨k, hk⟩ := Money.exists_cents hb
  have hsum : a.amount + b.amount = ((n + k : ℤ) : ℚ) / 100 := by
    rw [hn, hk]
    push_cast
    ring
  show quantize2 (a.amount + b.amount) = a.amount + b.amount
  rw [hsum, quantize2_div_100]

/-- The subtotal of an item with a quantized price is exactly price times
quantity. -/
theorem OrderItem.subtotal_amount_of_quantized {it : OrderItem} (h : it.price.Quantized) :
    it.subtotal.amount = it.price.amount * (it.quantity : ℚ) := by
  obtain ⟨n, hn⟩ := Money.exists_cents h
  have hprod : it.price.amount * (it.quantity : ℚ) = ((n * it.quantity : ℤ) : ℚ) / 100 := by
    rw [hn]
    push_cast
    ring
  show quantize2 (it.price.amount * (it.quantity : ℚ)) = it.price.amount * (it.quantity : ℚ)
  rw [hprod, quantize2_div_100]

/-- The total fold of `Order.calculate_total` over quantized item prices is
the exact sum of price-times-quantity. -/
theorem Order.foldl_add_amount (items : List OrderItem) (m : Money)
    (hm : m.Quantized) (hq : ∀ it ∈ items, it.price.Quantized) :
    (items.foldl (fun acc it => acc.add it.subtotal) m).amount =
      m.amount + (items.map (fun it => it.price.amount * (it.quantity : ℚ))).sum := by
  induction items generalizing m with
  | nil => simp
  | cons it rest ih =>
      simp only [List.foldl_cons, List.map_cons, List.sum_cons]
      have hsub : it.subtotal.Quantized := Money.ofRat_quantized _
      rw [ih (m.add it.subtotal) (Money.ofRat_quantized _)
        (fun x hx => hq x (List.mem_cons_of_mem it hx))]
      rw [Money.add_amount_of_quantized hm hsub]
      rw [OrderItem.subtotal_amount_of_quantized (hq it (List.mem_cons_self it rest))]
      ring

/-- C5: `Order.calculate_total` returns (and stores in `total_amount`) the
sum of price times quantity over the current items, and the total is
invariant under permutation of the items list. -/
theorem Order.calculate_total_spec (o : Order)
    (hq : ∀ it ∈ o.items, it.price.Quantized) :
    ((Order.calculate_total o).1 = (Order.calculate_total o).2.total_amount)
    ∧ ((Order.calculate_total o).1.amount =
        (o.items.map (fun it => it.price.amount * (it.quantity : ℚ))).sum)
    ∧ (∀ items₂ : List OrderItem, o.items.Perm items₂ →
        (Order.calculate_total { o with items := items₂ }).1 =
          (Order.calculate_total o).1) := by
  have amount_eq : ∀ (l : List OrderItem), (∀ it ∈ l, it.price.Quantized) →
      (l.foldl (fun acc it => acc.add it.subtotal) (Money.ofRat 0)).amount =
        (l.map (fun it => it.price.amount * (it.quantity : ℚ))).sum := by
    intro l hl
    rw [Order.foldl_add_amount l _ (Money.ofRat_quantized 0) hl]
    show quantize2 0 + _ = _
    rw [quantize2_zero, zero_add]
  refine ⟨rfl, amount_eq o.items hq, fun items₂ hperm => Money.eq_of_amount ?_⟩
  show (items₂.foldl (fun acc it => acc.add it.subtotal) (Money.ofRat 0)).amount =
    (o.items.foldl (fun acc it => acc.add it.subtotal) (Money.ofRat 0)).amount
  rw [amount_eq items₂ (fun it hit => hq it (hperm.mem_iff.mpr hit)),
    amount_eq o.items hq]
  exact ((hperm.map (fun it => it.price.amount * (it.quantity : ℚ))).sum_eq).symm

/-- Witness for C5: the sample order's total is the sum of its items'
price-times-quantity. -/
theorem Order.calculate_total_spec_witness :
    (Order.calculate_total sampleOrder).1.amount =
      (sampleOrder.items.map (fun it => it.price.amount * (it.quantity : ℚ))).sum :=
  (Order.calculate_total_spec sampleOrder (by
    intro it h
    have hit : it = sampleItem := by simpa [sampleOrder] using h
    rw [hit]
    with_unfolding_all decide)).2.1

/-- The removal loop finds nothing when no item carries the id. -/
theorem Order.removeFirstItem_eq_none {items : List OrderItem} {item_id : Int}
    (h : ∀ it ∈ items, it.id ≠ some item_id) :
    Order.removeFirstItem items item_id = none := by
  induction items with
  | nil => rfl
  | cons it rest ih =>
      unfold Order.removeFirstItem
      rw [if_neg (h it (List.mem_cons_self it rest)),
        ih (fun x hx => h x (List.mem_cons_of_mem it hx))]
      rfl

/-- C7 (amended): `Order.remove_item` fails with `BusinessRuleError` on a
terminal status; on a non-terminal status with no item carrying the id it
fails with `ValueError` ("Item with ID ... not found in order") returning the
order unchanged; otherwise it removes the first matching item, recalculates
the total and refreshes the timestamp. -/
theorem Order.remove_item_spec (now : Nat) (o : Order) (item_id : Int) :
    (OrderStatus.is_final o.status = true →
      Order.remove_item now o item_id =
        (some (Err.businessRuleError ("Cannot remove items from an order with status \x27" ++
          o.status ++ "\x27")), o))
    ∧ (OrderStatus.is_final o.status = false → (∀ it ∈ o.items, it.id ≠ some item_id) →
      Order.remove_item now o item_id =
        (some (Err.valueError ("Item with ID " ++ toString item_id ++ " not found in order")), o))
    ∧ (OrderStatus.is_final o.status = false → ∀ items',
        Order.removeFirstItem o.items item_id = some items' →
        Order.remove_item now o item_id =
          (none, { (Order.calculate_total { o with items := items' }).2 with
            updated_at := now })) := by
  refine ⟨fun h => ?_, fun h habs => ?_, fun h items' hrm => ?_⟩
  · unfold Order.remove_item
    rw [if_pos h]
  · unfold Order.remove_item
    rw [if_neg (by rw [h]; exact Bool.false_ne_true), Order.removeFirstItem_eq_none habs]
  · unfold Order.remove_item
    rw [if_neg (by rw [h]; exact Bool.false_ne_true), hrm]

/-- Counterexample for C7 as stated: on the pending sample order and absent
item id 7, `remove_item` raises `ValueError`, which is not the domain's
`NotFoundError`. -/
theorem Order.remove_item_raises_valueError :
    Order.remove_item 5 sampleOrder 7 =
      (some (Err.valueError ("Item with ID " ++ toString (7 : Int) ++ " not found in order")),
        sampleOrder)
    ∧ ((Order.remove_item 5 sampleOrder 7).1.map Err.isNotFound) = some false := by
  constructor <;> with_unfolding_all decide

/-- Witness for C7: the not-found case on the sample order. -/
theorem Order.remove_item_spec_witness :
    (Order.remove_item 5 sampleOrder 7).1 =
      some (Err.valueError ("Item with ID " ++ toString (7 : Int) ++ " not found in order")) := by
  rw [(Order.remove_item_spec 5 sampleOrder 7).2.1 (by decide) (by decide)]

/-- C4: `create_order_from_products` rejects an empty product list with
`BusinessRuleError`; for a non-empty list it never returns an order: the
`Order` is constructed before any item is added, and `Order.validate`
(run by `__post_init__`) rejects the empty items list with
`ValidationError`, contradicting the function's own contract of returning
the created order. -/
theorem OrderService.create_order_from_products_spec :
    (∀ (now : Nat) (user_id : Int) (addr : Address) (notes : String),
      OrderService.create_order_from_products now user_id [] addr notes =
        Except.error (Err.businessRuleError "Order must contain at least one product"))
    ∧ (∀ (now : Nat) (user_id : Int) (products : List (Int × Int)) (addr : Address)
        (notes : String), products ≠ [] → user_id ≠ 0 →
      OrderService.create_order_from_products now user_id products addr notes =
        Except.error (Err.validationError [("items", "Order must have at least one item")])) := by
  constructor
  · intro now user_id addr notes
    unfold OrderService.create_order_from_products
    rw [if_pos rfl]
  · intro now user_id products addr notes hne huid
    unfold OrderService.create_order_from_products
    rw [if_neg hne]
    have hval : Order.validate
        { id := none, user_id := user_id, status := OrderStatus.PENDING,
          total_amount := Money.ofRat 0, shipping_address := some addr,
          tracking_number := none, notes := notes, items := [],
          created_at := now, updated_at := now } =
        some (Err.validationError [("items", "Order must have at least one item")]) := by
      simp [Order.validate, OrderStatus.is_valid, OrderStatus.all, OrderStatus.PENDING,
        OrderStatus.PROCESSING, OrderStatus.SHIPPED, OrderStatus.DELIVERED,
        OrderStatus.CANCELLED, huid]
    have hmk : Order.mk_validated now user_id (some addr) notes =
        Except.error (Err.validationError [("items", "Order must have at least one item")]) := by
      unfold Order.mk_validated
      simp only [hval]
    show (Order.mk_validated now user_id (some addr) notes).bind _ = _
    rw [hmk]
    rfl

/-- Witness for C4: the concrete failing input of the claim. -/
theorem OrderService.create_order_from_products_spec_witness :
    OrderService.create_order_from_products 5 1 [(1, 2)] sampleAddress "" =
      Except.error (Err.validationError [("items", "Order must have at least one item")]) :=
  OrderService.create_order_from_products_spec.2 5 1 [(1, 2)] sampleAddress ""
    (by decide) (by decide)

/-- An item whose product id occurs nowhere in the product list is silently
skipped: the release loop returns the products unchanged. -/
theorem OrderService.releaseFirstMatch_of_absent (now : Nat) (it : OrderItem)
    (ps : List Product) (habs : it.product_id ∉ ps.map (fun p => p.id)) :
    OrderService.releaseFirstMatch now it ps = (none, ps) := by
  induction ps with
  | nil => rfl
  | cons p ps ih =>
      have hne : ¬(p.id = it.product_id) := fun h => habs (by simp [← h])
      have htl : it.product_id ∉ ps.map (fun p => p.id) := fun h => habs (by simp [h])
      unfold OrderService.releaseFirstMatch
      rw [if_neg hne, ih htl]

/-- Releasing one item with non-negative quantity never raises, keeps the
product ids, and adds the quantity to the total stock exactly when the item's
product id occurs in the list. -/
theorem OrderService.releaseFirstMatch_sum (now : Nat) (it : OrderItem)
    (ps : List Product) (hq : 0 ≤ it.quantity) :
    (OrderService.releaseFirstMatch now it ps).1 = none
    ∧ (OrderService.releaseFirstMatch now it ps).2.map (fun p => p.id) =
        ps.map (fun p => p.id)
    ∧ sumStocks (OrderService.releaseFirstMatch now it ps).2 =
        sumStocks ps +
          (if it.product_id ∈ ps.map (fun p => p.id) then it.quantity else 0) := by
  induction ps with
  | nil => exact ⟨rfl, rfl, by simp [OrderService.releaseFirstMatch, sumStocks]⟩
  | cons p ps ih =>
      by_cases hm : p.id = it.product_id
      · have hrel : Product.release_stock now p it.quantity =
            (none, { p with stock := p.stock + it.quantity, updated_at := now }) := by
          unfold Product.release_stock Product.update_stock
          rw [if_neg (by omega)]
        unfold OrderService.releaseFirstMatch
        rw [if_pos hm, hrel]
        refine ⟨rfl, by simp, ?_⟩
        have hmem : it.product_id ∈ (p :: ps).map (fun p => p.id) := by simp [← hm]
        rw [if_pos hmem]
        simp [sumStocks]
        ring
      · unfold OrderService.releaseFirstMatch
        rw [if_neg hm]
        obtain ⟨h1, h2, h3⟩ := ih
        refine ⟨h1, by simp [h2], ?_⟩
        have hcond : (it.product_id ∈ (p :: ps).map (fun p => p.id)) ↔
            (it.product_id ∈ ps.map (fun p => p.id)) := by
          simp [List.mem_cons]
          intro h
          exact absurd h.symm hm
        by_cases hin : it.product_id ∈ ps.map (fun p => p.id)
        · rw [if_pos (hcond.mpr hin)]
          rw [if_pos hin] at h3
          simp [sumStocks] at h3 ⊢
          omega
        · rw [if_neg (fun h => hin (hcond.mp h))]
          rw [if_neg hin] at h3
          simp [sumStocks] at h3 ⊢
          omega

/-- The release loop over a list of non-negative-quantity items never raises,
keeps the product ids, and adds to the total stock exactly the quantities of
the items whose product id occurs in the list. -/
theorem OrderService.releaseItems_sum (now : Nat) (items : List OrderItem)
    (ps : List Product) (hq : ∀ x ∈ items, 0 ≤ x.quantity) :
    (OrderService.releaseItems now items ps).1 = none
    ∧ (OrderService.releaseItems now items ps).2.map (fun p => p.id) =
        ps.map (fun p => p.id)
    ∧ sumStocks (OrderService.releaseItems now items ps).2 =
        sumStocks ps + reservedMatchedQty items (ps.map (fun p => p.id)) := by
  induction items generalizing ps with
  | nil => exact ⟨rfl, rfl, by simp [OrderService.releaseItems, reservedMatchedQty]⟩
  | cons it rest ih =>
      obtain ⟨h1, h2, h3⟩ :=
        OrderService.releaseFirstMatch_sum now it ps (hq it (List.mem_cons_self it rest))
      rcases hfm : OrderService.releaseFirstMatch now it ps with ⟨e, ps₁⟩
      rw [hfm] at h1 h2 h3
      simp only [] at h1 h2 h3
      subst h1
      obtain ⟨g1, g2, g3⟩ := ih ps₁ (fun x hx => hq x (List.mem_cons_of_mem it hx))
      have hrw : OrderService.releaseItems now (it :: rest) ps =
          OrderService.releaseItems now rest ps₁ := by
        simp only [OrderService.releaseItems, hfm]
      have hcons : reservedMatchedQty (it :: rest) (ps.map (fun p => p.id)) =
          (if it.product_id ∈ ps.map (fun p => p.id) then it.quantity else 0) +
            reservedMatchedQty rest (ps.map (fun p => p.id)) := rfl
      rw [hrw]
      refine ⟨g1, by rw [g2, h2], ?_⟩
      rw [g3, h3, h2, hcons]
      ring

/-- C9: cancelling a cancellable order releases stock only for items whose
product id occurs among the supplied products; an item whose product is
absent is silently skipped — the order still becomes `cancelled`, no error is
raised, and the skipped item's quantity is restored to no product (the total
released stock is unchanged by erasing that item from the order). -/
theorem OrderService.cancel_order_skips_unmatched (now : Nat) (o : Order)
    (ps : List Product)
    (hc : o.status ≠ OrderStatus.CANCELLED) (hd : o.status ≠ OrderStatus.DELIVERED)
    (hq : ∀ x ∈ o.items, 0 ≤ x.quantity)
    (it : OrderItem) (hit : it ∈ o.items)
    (habs : it.product_id ∉ ps.map (fun p => p.id)) :
    (OrderService.cancel_order now o ps).1 = none
    ∧ (OrderService.cancel_order now o ps).2.1.status = OrderStatus.CANCELLED
    ∧ sumStocks (OrderService.cancel_order now o ps).2.2 =
        sumStocks ps + reservedMatchedQty o.items (ps.map (fun p => p.id))
    ∧ reservedMatchedQty o.items (ps.map (fun p => p.id)) =
        reservedMatchedQty (o.items.erase it) (ps.map (fun p => p.id)) := by
  have hcan : Order.cancel now o =
      (none, { o with status := OrderStatus.CANCELLED, updated_at := now }) := by
    unfold Order.cancel
    rw [if_neg hc, if_neg hd]
  have hrw : OrderService.cancel_order now o ps =
      (let r := OrderService.releaseItems now o.items ps;
        (r.1, { o with status := OrderStatus.CANCELLED, updated_at := now }, r.2)) := by
    unfold OrderService.cancel_order
    rw [hcan]
  obtain ⟨h1, h2, h3⟩ := OrderService.releaseItems_sum now o.items ps hq
  have herase : ∀ (l : List OrderItem) (ids : List (Option Int)), it ∈ l →
      it.product_id ∉ ids →
      reservedMatchedQty l ids = reservedMatchedQty (l.erase it) ids := by
    intro l ids hmem h0
    induction l with
    | nil => cases hmem
    | cons a l ihl =>
        have hcons : ∀ (x : OrderItem) (xs : List OrderItem),
            reservedMatchedQty (x :: xs) ids =
              (if x.product_id ∈ ids then x.quantity else 0) +
                reservedMatchedQty xs ids := fun x xs => rfl
        by_cases hae : a = it
        · subst hae
          rw [List.erase_cons_head, hcons, if_neg h0, zero_add]
        · rw [List.erase_cons, if_neg (by simp [hae]), hcons, hcons,
            ihl (by
              rcases List.mem_cons.mp hmem with h | h
              · exact absurd h.symm hae
              · exact h)]
  rw [hrw]
  exact ⟨h1, rfl, h3, herase o.items _ hit habs⟩

/-- Witness for C9: cancelling the sample order that holds a stray item for
the absent product 99 succeeds, and erasing the stray item does not change
the total released quantity. -/
theorem OrderService.cancel_order_skips_unmatched_witness :
    (OrderService.cancel_order 7 orderWithStray [sampleProduct]).1 = none
    ∧ reservedMatchedQty orderWithStray.items ([sampleProduct].map (fun p => p.id)) =
        reservedMatchedQty (orderWithStray.items.erase strayItem)
          ([sampleProduct].map (fun p => p.id)) := by
  have h := OrderService.cancel_order_skips_unmatched 7 orderWithStray [sampleProduct]
    (by with_unfolding_all decide) (by with_unfolding_all decide)
    (by with_unfolding_all decide) strayItem
    (by with_unfolding_all decide) (by with_unfolding_all decide)
  exact ⟨h.1, h.2.2.2⟩

/-- With pairwise-distinct product ids, releasing one item of non-negative
quantity adds the quantity to the stock of exactly the product carrying the
item's product id (first match = unique match), and raises nothing. -/
theorem OrderService.releaseFirstMatch_nodup (now : Nat) (it : OrderItem) :
    ∀ ps : List Product, (ps.map (fun p => p.id)).Nodup → 0 ≤ it.quantity →
      OrderService.releaseFirstMatch now it ps =
        (none, ps.map (fun p => if p.id = it.product_id then
          { p with stock := p.stock + it.quantity, updated_at := now } else p)) := by
  intro ps
  induction ps with
  | nil => exact fun _ _ => rfl
  | cons p ps ih =>
      intro hnd hq
      have hnd' : (ps.map (fun p => p.id)).Nodup :=
        (List.nodup_cons.mp (by simpa using hnd)).2
      by_cases hm : p.id = it.product_id
      · have hnotin : p.id ∉ ps.map (fun p => p.id) :=
          (List.nodup_cons.mp (by simpa using hnd)).1
        have hmap : ps.map (fun x => if x.id = it.product_id then
            { x with stock := x.stock + it.quantity, updated_at := now } else x) = ps := by
          have hpt : ∀ x ∈ ps, (if x.id = it.product_id then
              { x with stock := x.stock + it.quantity, updated_at := now } else x) = id x := by
            intro x hx
            rw [if_neg]
            · rfl
            · intro hxe
              exact hnotin (by rw [hm, ← hxe]; exact List.mem_map_of_mem _ hx)
          exact (List.map_congr_left hpt).trans (List.map_id ps)
        have hrel : Product.release_stock now p it.quantity =
            (none, { p with stock := p.stock + it.quantity, updated_at := now }) := by
          unfold Product.release_stock Product.update_stock
          rw [if_neg (by omega)]
        simp only [OrderService.releaseFirstMatch, if_pos hm, hrel, List.map_cons, hmap]
      · simp only [OrderService.releaseFirstMatch, if_neg hm, ih hnd' hq, List.map_cons]

/-- With pairwise-distinct product ids, the release loop over items of
non-negative quantity raises nothing and adds to each product's stock the
total quantity reserved against its id. -/
theorem OrderService.releaseItems_restores (now : Nat) (items : List OrderItem) :
    ∀ ps : List Product, (ps.map (fun p => p.id)).Nodup →
      (∀ x ∈ items, 0 ≤ x.quantity) →
      (OrderService.releaseItems now items ps).1 = none
      ∧ (OrderService.releaseItems now items ps).2.map idStock =
          ps.map (fun p => (p.id, p.stock + reservedQty items p.id)) := by
  induction items with
  | nil =>
      intro ps hnd hq
      refine ⟨rfl, ?_⟩
      simp only [OrderService.releaseItems]
      exact List.map_congr_left (fun p hp => by simp [idStock, reservedQty])
  | cons it rest ih =>
      intro ps hnd hq
      have hstep := OrderService.releaseFirstMatch_nodup now it ps hnd
        (hq it (List.mem_cons_self it rest))
      have hrw : OrderService.releaseItems now (it :: rest) ps =
          OrderService.releaseItems now rest
            (ps.map (fun p => if p.id = it.product_id then
              { p with stock := p.stock + it.quantity, updated_at := now } else p)) := by
        simp only [OrderService.releaseItems, hstep]
      have hids : (ps.map (fun p => if p.id = it.product_id then
            { p with stock := p.stock + it.quantity, updated_at := now } else p)).map
              (fun p => p.id) = ps.map (fun p => p.id) := by
        rw [List.map_map]
        exact List.map_congr_left (fun p hp => by
          by_cases h : p.id = it.product_id <;> simp [Function.comp, h])
      obtain ⟨g1, g2⟩ := ih (ps.map (fun p => if p.id = it.product_id then
          { p with stock := p.stock + it.quantity, updated_at := now } else p))
        (by rw [hids]; exact hnd) (fun x hx => hq x (List.mem_cons_of_mem it hx))
      refine ⟨by rw [hrw]; exact g1, ?_⟩
      rw [hrw, g2, List.map_map]
      apply List.map_congr_left
      intro p hp
      have hcons : reservedQty (it :: rest) p.id =
          (if p.id = it.product_id then it.quantity else 0) + reservedQty rest p.id := rfl
      by_cases h : p.id = it.product_id
      · simp only [Function.comp, if_pos h, hcons]
        rw [Prod.mk.injEq]
        exact ⟨rfl, by ring⟩
      · simp only [Function.comp, if_neg h, hcons]
        rw [Prod.mk.injEq]
        exact ⟨rfl, by ring⟩

/-- An equation between `idStock` views transports along any observation of
the id-stock pair. -/
theorem map_pair_factor {A B : List Product} {G : Product → Option Int × Int}
    {γ : Type} (h : A.map idStock = B.map G) (g : Option Int × Int → γ) :
    A.map (fun p => g (idStock p)) = B.map (fun p => g (G p)) := by
  have hc := congrArg (List.map g) h
  simpa [List.map_map, Function.comp] using hc

/-- Inversion of a successful `add_product_to_order` call: the quantity was
positive and within stock, the created item carries the product's id, name,
quantity and price, the order gained exactly that item (status untouched),
and the product lost exactly the quantity. -/
theorem OrderService.add_product_to_order_ok {now : Nat} {o : Order} {p : Product}
    {q : Int} {it : OrderItem} {o' : Order} {p' : Product}
    (h : OrderService.add_product_to_order now o p q = Except.ok (it, o', p')) :
    0 < q ∧ q ≤ p.stock
    ∧ it = { id := none, order_id := none, product_id := p.id, product_name := p.name,
             quantity := q, price := p.price }
    ∧ o'.status = o.status
    ∧ o'.items = o.items ++ [{ it with order_id := o.id }]
    ∧ p' = { p with stock := p.stock + -q, updated_at := now } := by
  unfold OrderService.add_product_to_order at h
  by_cases h1 : OrderStatus.is_final o.status = true
  · rw [if_pos h1] at h
    exact absurd h (by simp)
  rw [if_neg h1] at h
  by_cases h2 : q ≤ 0
  · rw [if_pos h2] at h
    exact absurd h (by simp)
  rw [if_neg h2] at h
  by_cases h3 : p.stock < q
  · rw [if_pos h3] at h
    exact absurd h (by simp)
  rw [if_neg h3] at h
  unfold OrderItem.mk_validated at h
  rcases hv : OrderItem.validate
      { id := none, order_id := none, product_id := p.id, product_name := p.name,
        quantity := q, price := p.price } with _ | e
  · have hadd : Order.add_item now o
        { id := none, order_id := none, product_id := p.id, product_name := p.name,
          quantity := q, price := p.price } =
        (none, { (Order.calculate_total { o with items := o.items ++
          [{ id := none, order_id := o.id, product_id := p.id, product_name := p.name,
             quantity := q, price := p.price }] }).2 with updated_at := now }) := by
      unfold Order.add_item
      rw [if_neg h1]
    have hres : Product.reserve_stock now p q =
        (none, { p with stock := p.stock + -q, updated_at := now }) := by
      unfold Product.reserve_stock Product.update_stock
      rw [if_neg (by
        rintro ⟨ha, hb⟩
        rw [abs_of_neg ha] at hb
        omega)]
    simp only [hv, hadd, hres] at h
    have hinj := Except.ok.inj h
    simp only [Prod.mk.injEq] at hinj
    obtain ⟨e1, e2, e3⟩ := hinj
    refine ⟨by omega, by omega, e1.symm, ?_, ?_, e3.symm⟩
    · rw [← e2]
      rfl
    · rw [← e2, ← e1]
      rfl
  · simp only [hv] at h
    exact absurd h (by simp)

/-- Replacing the product at index `k` by one with the same id and `d` more
stock is, on the id-stock view and under pairwise-distinct ids, the pointwise
update of the unique product carrying that id. -/
theorem map_idStock_set (ps : List Product) (k : Nat) (p' : Product) (d : Int)
    (hk : k < ps.length) (hnd : (ps.map (fun p => p.id)).Nodup)
    (hid : p'.id = (ps[k]).id) (hstock : p'.stock = (ps[k]).stock + d) :
    (ps.set k p').map idStock =
      ps.map (fun p => (p.id, p.stock + if p.id = (ps[k]).id then d else 0)) := by
  apply List.ext_getElem (by simp)
  intro j hj1 hj2
  have hj : j < ps.length := by simpa using hj2
  rw [List.getElem_map, List.getElem_map]
  by_cases hjk : j = k
  · subst hjk
    rw [List.getElem_set_self (by simpa using hj1)]
    show (p'.id, p'.stock) = _
    rw [hid, hstock, if_pos rfl]
  · rw [List.getElem_set_ne (fun h => hjk h.symm)]
    have hne : (ps[j]).id ≠ (ps[k]).id := by
      intro he
      apply hjk
      have hj' : j < (ps.map (fun p => p.id)).length := by simpa using hj
      have hk' : k < (ps.map (fun p => p.id)).length := by simpa using hk
      have hjj : (ps.map (fun p => p.id))[j] = (ps.map (fun p => p.id))[k] := by
        rw [List.getElem_map, List.getElem_map]
        exact he
      exact (List.Nodup.getElem_inj_iff hnd).mp hjj
    rw [if_neg hne, add_zero]
    rfl

/-- Invariant of a successful `add_product_to_order` call sequence: the
status is untouched, the items grew by a list of positive-quantity items, and
on the id-stock view each product lost exactly the quantity reserved against
its id (ids pairwise distinct). -/
theorem OrderService.applyAdds_inv {now : Nat} :
    ∀ (ops : List (Nat × Int)) (o : Order) (ps : List Product) (o' : Order)
      (ps' : List Product), (ps.map (fun p => p.id)).Nodup →
      OrderService.applyAdds now ops o ps = Except.ok (o', ps') →
      o'.status = o.status
      ∧ ∃ newItems : List OrderItem,
          o'.items = o.items ++ newItems
          ∧ (∀ x ∈ newItems, 0 < x.quantity)
          ∧ ps'.map idStock =
              ps.map (fun p => (p.id, p.stock - reservedQty newItems p.id)) := by
  intro ops
  induction ops with
  | nil =>
      intro o ps o' ps' hnd h
      simp only [OrderService.applyAdds] at h
      have hinj := Except.ok.inj h
      rw [Prod.mk.injEq] at hinj
      obtain ⟨ho, hps⟩ := hinj
      subst ho
      subst hps
      refine ⟨rfl, [], by simp, by simp, ?_⟩
      exact List.map_congr_left (fun x hx => by simp [idStock, reservedQty])
  | cons op rest ih =>
      intro o ps o' ps' hnd h
      obtain ⟨k, q⟩ := op
      rcases hk : ps[k]? with _ | pk
      · simp only [OrderService.applyAdds, hk] at h
        exact absurd h (by simp)
      · simp only [OrderService.applyAdds, hk] at h
        rcases ha : OrderService.add_product_to_order now o pk q with e | ⟨it1, o1, p1⟩
        · simp only [ha] at h
          exact absurd h (by simp)
        · simp only [ha] at h
          obtain ⟨hq, hqle, hit, hst, hitems, hp1⟩ := OrderService.add_product_to_order_ok ha
          subst hit
          obtain ⟨hkb, hpk⟩ := List.getElem?_eq_some_iff.mp hk
          have hid1 : p1.id = (ps[k]).id := by
            rw [hp1, hpk]
          have hstock1 : p1.stock = (ps[k]).stock + -q := by
            rw [hp1, hpk]
          have hpair := map_idStock_set ps k p1 (-q) hkb hnd hid1 hstock1
          rw [hpk] at hpair
          have hids : (ps.set k p1).map (fun p => p.id) = ps.map (fun p => p.id) := by
            have hft := congrArg (List.map Prod.fst) hpair
            simpa [List.map_map, Function.comp, idStock] using hft
          obtain ⟨ihst, N, ihitems, ihq, ihstocks⟩ :=
            ih o1 (ps.set k p1) o' ps' (by rw [hids]; exact hnd) h
          refine ⟨by rw [ihst, hst],
            ⟨{ id := none, order_id := o.id, product_id := pk.id, product_name := pk.name,
               quantity := q, price := pk.price } :: N, ?_, ?_, ?_⟩⟩
          · rw [ihitems, hitems, List.append_assoc]
            rfl
          · intro x hx
            rcases List.mem_cons.mp hx with rfl | hx2
            · exact hq
            · exact ihq x hx2
          · rw [ihstocks]
            have hfac := map_pair_factor hpair
              (fun pr => (pr.1, pr.2 - reservedQty N pr.1))
            simp only [idStock] at hfac
            rw [hfac]
            apply List.map_congr_left
            intro x hx
            have hcons : reservedQty
                ({ id := none, order_id := o.id, product_id := pk.id,
                   product_name := pk.name, quantity := q, price := pk.price } :: N) x.id =
                (if x.id = pk.id then q else 0) + reservedQty N x.id := rfl
            rw [hcons, Prod.mk.injEq]
            refine ⟨rfl, ?_⟩
            by_cases hc : x.id = pk.id
            · rw [if_pos hc, if_pos hc]
              ring
            · rw [if_neg hc, if_neg hc]
              ring

/-- C3: placing then cancelling is a round trip on stock.  Starting from a
pending order with no items and products with pairwise-distinct ids, after
any successful sequence of `add_product_to_order` calls, `cancel_order`
succeeds, sets the order to `cancelled`, and restores every product's stock
to its pre-order value; and cancelling an already-cancelled or delivered
order raises `BusinessRuleError` leaving the order and every product
unchanged. -/
theorem OrderService.cancel_restores_stock (now now2 : Nat) (o0 : Order)
    (ps0 : List Product)
    (hst : o0.status = OrderStatus.PENDING) (hit : o0.items = [])
    (hnd : (ps0.map (fun p => p.id)).Nodup)
    (ops : List (Nat × Int)) (o : Order) (ps : List Product)
    (hrun : OrderService.applyAdds now ops o0 ps0 = Except.ok (o, ps)) :
    ((OrderService.cancel_order now2 o ps).1 = none
     ∧ (OrderService.cancel_order now2 o ps).2.1.status = OrderStatus.CANCELLED
     ∧ (OrderService.cancel_order now2 o ps).2.2.map (fun p => p.stock) =
         ps0.map (fun p => p.stock))
    ∧ (∀ (o2 : Order) (ps2 : List Product),
        o2.status = OrderStatus.CANCELLED ∨ o2.status = OrderStatus.DELIVERED →
        ∃ msg, OrderService.cancel_order now2 o2 ps2 =
          (some (Err.businessRuleError msg), o2, ps2)) := by
  constructor
  · obtain ⟨hstat, N, hitems, hpos, hstocks⟩ :=
      OrderService.applyAdds_inv ops o0 ps0 o ps hnd hrun
    have hoitems : o.items = N := by
      rw [hitems, hit]
      rfl
    have hostat : o.status = OrderStatus.PENDING := by rw [hstat, hst]
    have hcan : Order.cancel now2 o =
        (none, { o with status := OrderStatus.CANCELLED, updated_at := now2 }) := by
      unfold Order.cancel
      rw [if_neg (by rw [hostat]; decide), if_neg (by rw [hostat]; decide)]
    have hids : ps.map (fun p => p.id) = ps0.map (fun p => p.id) := by
      have hft := congrArg (List.map Prod.fst) hstocks
      simpa [List.map_map, Function.comp, idStock] using hft
    have hq0 : ∀ x ∈ o.items, 0 ≤ x.quantity := by
      rw [hoitems]
      exact fun x hx => le_of_lt (hpos x hx)
    obtain ⟨r1, r2⟩ := OrderService.releaseItems_restores now2 o.items ps
      (by rw [hids]; exact hnd) hq0
    have hcrw : OrderService.cancel_order now2 o ps =
        ((OrderService.releaseItems now2 o.items ps).1,
         { o with status := OrderStatus.CANCELLED, updated_at := now2 },
         (OrderService.releaseItems now2 o.items ps).2) := by
      unfold OrderService.cancel_order
      rw [hcan]
    rw [hcrw]
    refine ⟨r1, rfl, ?_⟩
    rw [hoitems] at r2
    have hfac := map_pair_factor hstocks (fun pr => (pr.1, pr.2 + reservedQty N pr.1))
    simp only [idStock] at hfac
    have hrel2 := r2.trans hfac
    have hstk := map_pair_factor hrel2 Prod.snd
    rw [hoitems]
    simpa [idStock, sub_add_cancel] using hstk
  · intro o2 ps2 h2
    rcases h2 with h2 | h2
    · refine ⟨"Order is already cancelled", ?_⟩
      unfold OrderService.cancel_order Order.cancel
      rw [if_pos h2]
    · refine ⟨"Cannot cancel a delivered order", ?_⟩
      unfold OrderService.cancel_order Order.cancel
      rw [if_neg (by rw [h2]; decide), if_pos h2]

/-- The concrete `applyAdds` run of the C3 witness: add two units of the
sample product to an empty pending order. -/
def addRunW : Except Err (Order × List Product) :=
  OrderService.applyAdds 1 [(0, 2)] emptyOrder [sampleProduct]

/-- The order produced by the witness run. -/
def orderW : Order :=
  match addRunW with
  | .ok (o, _) => o
  | .error _ => emptyOrder

/-- The product list produced by the witness run. -/
def productsW : List Product :=
  match addRunW with
  | .ok (_, ps) => ps
  | .error _ => []

/-- Witness for C3: after reserving 2 units, cancelling restores the sample
product's stock to 10. -/
theorem OrderService.cancel_restores_stock_witness :
    (OrderService.cancel_order 2 orderW productsW).2.2.map (fun p => p.stock) =
      [sampleProduct].map (fun p => p.stock) :=
  (OrderService.cancel_restores_stock 1 2 emptyOrder [sampleProduct] rfl rfl
    (by decide) [(0, 2)] orderW productsW (by with_unfolding_all rfl)).1.2.2
